import Mathlib

/-!
# The log-event bridge of `src/node/ext/node_grpc.cc`

A shallow embedding of the logger part of the Node extension: the queue of
pending log events filled by `node_log_func` on engine threads, the consumer
handler `LogMessagesCallback` that swaps the queue out and calls the registered
JavaScript function once per event, and the two exported setters
`setDefaultLoggerCallback` and `setLogVerbosity`.

The process-wide singleton `grpc_logger_state` becomes a field of an explicit
`Process` record that every operation takes and returns.  Three further fields
of `Process` are observation counters that the source does not store but whose
events it performs: the number of `gpr_set_log_function` calls, the number of
`uv_async_send` calls, and the sequence of `callback->Call` invocations.
Each critical section (`uv_mutex_lock` .. `uv_mutex_unlock`) is one atomic
update of `pending_args`.

The `file` of an event is a pointer that the bridge keeps and follows only when
it dispatches the event; the text behind it is the caller's and is read from
the environment (`Env.c_str`).  The message is copied by the hook and is a
value.

The dispatch loop is given twice.  `dispatch` is the loop for a user function
that gives control back and makes no call into the module while it runs.
`dispatch_reentrant` is the loop for any user function: it may call the
exported setters or make the engine log while it runs, and an exception it
throws either is taken by an `uncaughtException` handler or ends the process;
`dispatch_reentrant_plain` relates the two.
-/

namespace NodeGrpc

/-! ## Data model -/

/-- The clock value `gpr_timespec` read by `gpr_now`. -/
structure gpr_timespec where
  tv_sec : Int
  tv_nsec : Int
  deriving DecidableEq, Repr

/-- The record `gpr_log_func_args` that the engine passes to a log function.
`file` is a `const char *`: the address of a buffer that stays the caller's
(the bridge never copies it).  `line` is a C `int`.  `severity` is the raw
value of the C enumeration `gpr_log_severity`.  `message` is the text found in
the caller's NUL-terminated buffer during the call, the text that
`node_log_func` copies. -/
structure gpr_log_func_args where
  file : Nat
  line : Int
  severity : Nat
  message : String
  deriving DecidableEq, Repr

/-- The queue element `log_args`: a copy of the engine arguments and the time
at which the copy was made. -/
structure log_args where
  core_args : gpr_log_func_args
  timestamp : gpr_timespec
  deriving DecidableEq, Repr

/-- JavaScript values as far as the logger distinguishes them.  `number i` is a
number with an integral value, `non_integral` any other number, `function f`
the function object with identity `f`, `date ms` a `v8::Date`. -/
inductive Value where
  | undefined
  | null
  | boolean (b : Bool)
  | number (i : Int)
  | non_integral
  | string (s : String)
  | function (f : Nat)
  | object
  | date (ms : Int)
  deriving DecidableEq, Repr

/-- The test `v->IsFunction()`. -/
def Value.IsFunction : Value → Bool
  | .function _ => true
  | _ => false

/-- The test `v->IsUint32()`: a number whose value is an integer in
`[0, 2^32)`. -/
def Value.IsUint32 : Value → Bool
  | .number i => decide (0 ≤ i ∧ i < 4294967296)
  | _ => false

/-- The conversion `Nan::To<uint32_t>(v).FromJust()` on numbers (reduction
modulo `2^32`).  The source applies it only behind the `IsUint32` test, so the
remaining cases are never evaluated. -/
def Value.ToUint32 : Value → Nat
  | .number i => (i % 4294967296).toNat
  | _ => 0

/-- A persistent handle `Nan::Callback` on the JavaScript function `fn`. -/
structure Callback where
  fn : Nat
  deriving DecidableEq, Repr

/-- How a call into JavaScript that gave control back ended: the function
returned, or it threw and `Call` returned an empty handle (a JavaScript
exception does not unwind the C++ caller). -/
inductive CallOutcome where
  | returned
  | threw
  deriving DecidableEq, Repr

/-- One execution of `grpc_logger_state.callback->Call(argc, argv)`. -/
structure Invocation where
  callback : Callback
  argv : List Value
  outcome : CallOutcome
  deriving DecidableEq, Repr

/-- The record `logger_state`, without the mutex and the async handle (their
effect is the atomicity of the queue updates and the wake of the consumer). -/
structure logger_state where
  callback : Option Callback
  pending_args : List log_args
  logger_set : Bool
  deriving DecidableEq, Repr

/-- The function the engine currently routes log messages to: its own
synchronous default, or the bridge's `node_log_func`. -/
inductive gpr_log_func where
  | gpr_default_log
  | node_log_func
  deriving DecidableEq, Repr

/-- The state of the process as the logger sees it: the singleton
`grpc_logger_state`, the engine's log function and minimum severity, and the
three observation counters. -/
structure Process where
  grpc_logger_state : logger_state
  g_log_func : gpr_log_func
  g_min_severity_to_print : Nat
  set_log_function_calls : Nat
  async_sends : Nat
  calls : List Invocation
  deriving DecidableEq, Repr

/-- What the dispatch loop finds outside this file: the text that stands
behind a `const char *` when the loop reads it (`c_str`; the buffers are the
callers'), the engine's `gpr_log_severity_string`, the helper
`grpc::node::TimespecToMilliseconds`, and the behaviour of the user's
JavaScript function (its outcome may depend on all earlier invocations). -/
structure Env where
  c_str : Nat → String
  gpr_log_severity_string : Nat → String
  TimespecToMilliseconds : gpr_timespec → Int
  call : List Invocation → Callback → List Value → CallOutcome

/-- What an exported method reports to its JavaScript caller. -/
inductive Completion where
  | normal
  | throwTypeError (msg : String)
  deriving DecidableEq, Repr

/-- The only way the handler can go wrong: `callback->Call` through the null
pointer left by `memset`. -/
inductive Fault where
  | null_callback
  deriving DecidableEq, Repr

/-! ## Engine operations used by the bridge -/

/-- Modelled from the spec: the severity levels of `grpc/support/log.h`, which
is not among the sources; the spec orders them DEBUG < INFO < ERROR. -/
def GPR_LOG_SEVERITY_DEBUG : Nat := 0

/-- Modelled from the spec: see `GPR_LOG_SEVERITY_DEBUG`. -/
def GPR_LOG_SEVERITY_INFO : Nat := 1

/-- Modelled from the spec: see `GPR_LOG_SEVERITY_DEBUG`. -/
def GPR_LOG_SEVERITY_ERROR : Nat := 2

/-- Modelled from the spec: the engine's `gpr_set_log_function`, which hooks a
log function into the engine's logging subsystem. -/
def gpr_set_log_function (f : gpr_log_func) (p : Process) : Process :=
  { p with g_log_func := f, set_log_function_calls := p.set_log_function_calls + 1 }

/-- Modelled from the spec: the engine's `gpr_set_log_verbosity`, the explicit
setter of the Severity Gate's minimum-severity threshold. -/
def gpr_set_log_verbosity (min_severity_to_print : Nat) (p : Process) : Process :=
  { p with g_min_severity_to_print := min_severity_to_print }

/-! ## The bridge -/

/-- The hook `node_log_func`: copy the argument record (the `file` pointer with
it, not the text behind it), replace the message by a private copy of its
text, stamp the copy with the clock value `now` (the result of `gpr_now`),
append it to `pending_args` under the mutex, then signal the async handle. -/
def node_log_func (args : gpr_log_func_args) (now : gpr_timespec) (p : Process) : Process :=
  let message := args.message
  let args_copy : log_args := { core_args := { args with message := message }, timestamp := now }
  { p with
    grpc_logger_state :=
      { p.grpc_logger_state with
        pending_args := p.grpc_logger_state.pending_args ++ [args_copy] },
    async_sends := p.async_sends + 1 }

/-- Modelled from the spec: the engine's logging entry point `gpr_log_message`
with the Severity Gate of section 4.1: an event below the threshold is
suppressed before anything is constructed; any other event goes to the
installed log function.  The engine's default function writes to the standard
error stream and touches nothing of the bridge. -/
def gpr_log_message (args : gpr_log_func_args) (now : gpr_timespec) (p : Process) : Process :=
  if args.severity < p.g_min_severity_to_print then p
  else
    match p.g_log_func with
    | .gpr_default_log => p
    | .node_log_func => node_log_func args now p

/-- The five arguments built for one event in the loop of
`LogMessagesCallback`: the text read now through the stored `file` pointer,
the `int` line converted to `uint32_t` (reduction modulo `2^32`), the severity
string, the copied message, the timestamp in milliseconds. -/
def event_argv (env : Env) (arg : log_args) : List Value :=
  let file := Value.string (env.c_str arg.core_args.file)
  let line := Value.number (arg.core_args.line % 4294967296)
  let severity := Value.string (env.gpr_log_severity_string arg.core_args.severity)
  let message := Value.string arg.core_args.message
  let timestamp := Value.date (env.TimespecToMilliseconds arg.timestamp)
  [file, line, severity, message, timestamp]

/-- The loop `while (!args.empty())` of `LogMessagesCallback` over the local
queue `args`: take the front element, build the argument vector, call the
stored callback, go on with the rest whatever the call's outcome.  This is the
loop for a user function that gives control back and makes no call into the
module while it runs; `dispatch_reentrant` drops both assumptions. -/
def dispatch (env : Env) : List log_args → Process → Except Fault Process
  | [], p => .ok p
  | arg :: args, p =>
    match p.grpc_logger_state.callback with
    | none => .error Fault.null_callback
    | some cb =>
      let argv := event_argv env arg
      let outcome := env.call p.calls cb argv
      dispatch env args { p with calls := p.calls ++ [{ callback := cb, argv := argv, outcome := outcome }] }

/-- The handler `LogMessagesCallback`, run by the event loop on a wake: swap
`pending_args` with an empty local queue under the mutex, then dispatch the
local queue. -/
def LogMessagesCallback (env : Env) (p : Process) : Except Fault Process :=
  let args := p.grpc_logger_state.pending_args
  let p1 : Process :=
    { p with grpc_logger_state := { p.grpc_logger_state with pending_args := [] } }
  dispatch env args p1

/-- The function `init_logger`: zero the state, create the empty queue, clear
`logger_set`.  The engine is in its initial configuration (default log
function); `baseline` is the threshold that `gpr_log_verbosity_init` leaves. -/
def init_logger (baseline : Nat) : Process :=
  { grpc_logger_state := { callback := none, pending_args := [], logger_set := false },
    g_log_func := gpr_log_func.gpr_default_log,
    g_min_severity_to_print := baseline,
    set_log_function_calls := 0,
    async_sends := 0,
    calls := [] }

/-- The exported method `setDefaultLoggerCallback` applied to `info[0]`. -/
def SetDefaultLoggerCallback (info0 : Value) (p : Process) : Completion × Process :=
  match info0 with
  | .function f =>
    let p1 : Process :=
      if !p.grpc_logger_state.logger_set then
        let p0 := gpr_set_log_function gpr_log_func.node_log_func p
        { p0 with grpc_logger_state := { p0.grpc_logger_state with logger_set := true } }
      else p
    (Completion.normal,
      { p1 with grpc_logger_state := { p1.grpc_logger_state with callback := some { fn := f } } })
  | _ =>
    (Completion.throwTypeError "setDefaultLoggerCallback's argument must be a function", p)

/-- The exported method `setLogVerbosity` applied to `info[0]`. -/
def SetLogVerbosity (info0 : Value) (p : Process) : Completion × Process :=
  if !info0.IsUint32 then
    (Completion.throwTypeError "setLogVerbosity's argument must be a number", p)
  else
    let severity := info0.ToUint32
    (Completion.normal, gpr_set_log_verbosity severity p)

/-! ## Runs -/

/-- A step of the bridge proper: a call of the hook by some engine thread (with
the clock value it reads), or a wake of the consumer handler. -/
inductive Step where
  | push (args : gpr_log_func_args) (now : gpr_timespec)
  | wake
  deriving DecidableEq, Repr

/-- One bridge step. -/
def Step.apply (env : Env) : Step → Process → Except Fault Process
  | .push args now, p => .ok (node_log_func args now p)
  | .wake, p => LogMessagesCallback env p

/-- A finite sequence of bridge steps, in order. -/
def bridge_run (env : Env) : List Step → Process → Except Fault Process
  | [], p => .ok p
  | st :: rest, p =>
    match st.apply env p with
    | .ok p1 => bridge_run env rest p1
    | .error e => .error e

/-- The events pushed by a sequence of steps, in push order. -/
def pushed : List Step → List log_args
  | [] => []
  | .push args now :: rest => { core_args := args, timestamp := now } :: pushed rest
  | .wake :: rest => pushed rest

/-- The state built by `init_logger` followed by a registration of the
function `f`. -/
def registered (baseline : Nat) (f : Nat) : Process :=
  (SetDefaultLoggerCallback (Value.function f) (init_logger baseline)).2

/-- Any operation on the logger: the two exported setters with an arbitrary
argument, an event produced by the engine, a wake of the handler. -/
inductive Op where
  | setDefaultLoggerCallback (info0 : Value)
  | setLogVerbosity (info0 : Value)
  | log (args : gpr_log_func_args) (now : gpr_timespec)
  | wake
  deriving DecidableEq, Repr

/-- One operation. -/
def Op.apply (env : Env) : Op → Process → Except Fault Process
  | .setDefaultLoggerCallback v, p => .ok (SetDefaultLoggerCallback v p).2
  | .setLogVerbosity v, p => .ok (SetLogVerbosity v p).2
  | .log args now, p => .ok (gpr_log_message args now p)
  | .wake, p => LogMessagesCallback env p

/-- A finite sequence of operations, in order. -/
def run (env : Env) : List Op → Process → Except Fault Process
  | [], p => .ok p
  | op :: rest, p =>
    match op.apply env p with
    | .ok p1 => run env rest p1
    | .error e => .error e

/-- Successive calls of `setDefaultLoggerCallback` with the functions of `fs`,
in order. -/
def register_all : List Nat → Process → Process
  | [], p => p
  | f :: fs, p => register_all fs (SetDefaultLoggerCallback (Value.function f) p).2

/-- Modelled from the spec: the engine hands an event to the log function that
`gpr_set_log_function` installed (section 4.4).  While the engine's default
function is in place the bridge is inert; once `node_log_func` is installed the
hook is called, here whatever the threshold is. -/
def engine_emit (args : gpr_log_func_args) (now : gpr_timespec) (p : Process) : Process :=
  match p.g_log_func with
  | .gpr_default_log => p
  | .node_log_func => node_log_func args now p

/-- What can happen to the logger after `init_logger`: a call of either
exported setter with an arbitrary argument, an event emitted by the engine
(which reaches the hook only if the hook is installed), a wake of the
handler. -/
inductive Action where
  | setDefaultLoggerCallback (info0 : Value)
  | setLogVerbosity (info0 : Value)
  | emit (args : gpr_log_func_args) (now : gpr_timespec)
  | wake
  deriving DecidableEq, Repr

/-- One action. -/
def Action.apply (env : Env) : Action → Process → Except Fault Process
  | .setDefaultLoggerCallback v, p => .ok (SetDefaultLoggerCallback v p).2
  | .setLogVerbosity v, p => .ok (SetLogVerbosity v p).2
  | .emit args now, p => .ok (engine_emit args now p)
  | .wake, p => LogMessagesCallback env p

/-- A finite sequence of actions, in order. -/
def execute (env : Env) : List Action → Process → Except Fault Process
  | [], p => .ok p
  | a :: rest, p =>
    match a.apply env p with
    | .ok p1 => execute env rest p1
    | .error e => .error e

/-- The invariant behind the unguarded `callback->Call`: while `logger_set` is
false the queue is empty and the engine still uses its default log function;
once `logger_set` is true a callback is stored. -/
def callback_ready (p : Process) : Prop :=
  (p.grpc_logger_state.logger_set = false →
    p.grpc_logger_state.pending_args = [] ∧ p.g_log_func = gpr_log_func.gpr_default_log) ∧
  (p.grpc_logger_state.logger_set = true → ∃ cb, p.grpc_logger_state.callback = some cb)

/-! ## The loop with a user function that calls back or ends the process -/

/-- A call into the module that the user's function can make while it runs:
either exported setter with any argument, or an engine operation that emits a
log event.  The handler itself is not exported and is not re-entered. -/
inductive Reentry where
  | setDefaultLoggerCallback (info0 : Value)
  | setLogVerbosity (info0 : Value)
  | emit (args : gpr_log_func_args) (now : gpr_timespec)
  deriving DecidableEq, Repr

/-- The effect of one call into the module made from inside the user's
function. -/
def Reentry.apply : Reentry → Process → Process
  | .setDefaultLoggerCallback v, p => (SetDefaultLoggerCallback v p).2
  | .setLogVerbosity v, p => (SetLogVerbosity v p).2
  | .emit args now, p => engine_emit args now p

/-- How one run of the user's function ends, seen from `callback->Call`: it
returns; or it throws and an `uncaughtException` handler takes the exception,
so that `Call` returns an empty handle; or it throws with no such handler, and
Node's default ends the process before `Call` returns. -/
inductive Ending where
  | returned
  | caught
  | uncaught
  deriving DecidableEq, Repr

/-- The recorded outcome of a call that ended in the given way. -/
def Ending.outcome : Ending → CallOutcome
  | .returned => CallOutcome.returned
  | .caught => CallOutcome.threw
  | .uncaught => CallOutcome.threw

/-- One run of the user's function: the calls into the module it makes, in
order, and the way it ends. -/
structure Script where
  reentry : List Reentry
  ending : Ending
  deriving DecidableEq, Repr

/-- The ways the handler can stop before the local queue is empty: the call
through the null pointer, or the end of the process inside `callback->Call`,
with the invocations made so far and the events of the batch that were never
handed over. -/
inductive Abort where
  | null_callback
  | process_exit (calls : List Invocation) (undelivered : List log_args)
  deriving DecidableEq, Repr

/-- The loop of `LogMessagesCallback` with the user's function given by
scripts: `js n cb argv` is the run of function `cb` on `argv` when `n`
invocations have been made before.  The loop has no `TryCatch` and reads
`grpc_logger_state.callback` anew in every iteration: the calls made by the
function take effect at once, and an uncaught exception ends the process with
the rest of the local queue undelivered. -/
def dispatch_reentrant (env : Env) (js : Nat → Callback → List Value → Script) :
    List log_args → Process → Except Abort Process
  | [], p => .ok p
  | arg :: args, p =>
    match p.grpc_logger_state.callback with
    | none => .error Abort.null_callback
    | some cb =>
      let argv := event_argv env arg
      let script := js p.calls.length cb argv
      let p1 : Process :=
        { p with calls := p.calls ++
            [{ callback := cb, argv := argv, outcome := script.ending.outcome }] }
      let p2 := script.reentry.foldl (fun q r => r.apply q) p1
      match script.ending with
      | .uncaught => .error (Abort.process_exit p2.calls args)
      | .returned => dispatch_reentrant env js args p2
      | .caught => dispatch_reentrant env js args p2

/-- The memory at the time of the sample calls of the hook: two file names of
the engine, as string literals, at two addresses. -/
def memory_at_call : Nat → String :=
  fun a => if a = 4096 then "call.c" else if a = 8192 then "server.c" else ""

/-- A concrete environment: the memory still as it was at the calls, the
severity strings D, I, E of the engine, whole milliseconds, and a user function
that always throws. -/
def sample_env : Env :=
  { c_str := memory_at_call,
    gpr_log_severity_string := fun s =>
      if s = 0 then "D" else if s = 1 then "I" else if s = 2 then "E" else "UNKNOWN",
    TimespecToMilliseconds := fun ts => ts.tv_sec * 1000 + ts.tv_nsec / 1000000,
    call := fun _ _ _ => CallOutcome.threw }

/-- The memory at a later time, after the buffers behind the two addresses have
been given back and used for other text. -/
def memory_reused : Nat → String :=
  fun _ => "reused"

/-- A concrete INFO event, as the engine passes it to a log function. -/
def sample_info : gpr_log_func_args :=
  { file := 4096, line := 42, severity := GPR_LOG_SEVERITY_INFO, message := "m1" }

/-- A second concrete INFO event. -/
def sample_info2 : gpr_log_func_args :=
  { file := 8192, line := 7, severity := GPR_LOG_SEVERITY_INFO, message := "m2" }

/-- The first concrete event with a negative line, which the C type `int` of
the field admits. -/
def sample_negative_line : gpr_log_func_args :=
  { sample_info with line := -1 }

/-- A concrete clock value. -/
def sample_time : gpr_timespec := { tv_sec := 1500000000, tv_nsec := 250000000 }

/-- A later concrete clock value. -/
def sample_time2 : gpr_timespec := { tv_sec := 1500000001, tv_nsec := 0 }

/-! ## Lemmas on the dispatch loop and on runs -/

/-- With a callback stored, the loop ends normally having appended one
invocation per event of the batch, in batch order, and changed nothing else. -/
theorem dispatch_some (env : Env) (cb : Callback) (args : List log_args) :
    ∀ p : Process, p.grpc_logger_state.callback = some cb →
      ∃ tr : List Invocation,
        dispatch env args p = .ok { p with calls := p.calls ++ tr } ∧
        tr.map Invocation.argv = args.map (event_argv env) ∧
        (∀ inv ∈ tr, inv.callback = cb) := by
  induction args with
  | nil =>
    intro p _
    exact ⟨[], by simp [dispatch], rfl, by simp⟩
  | cons arg args ih =>
    intro p hcb
    obtain ⟨tr, h1, h2, h3⟩ :=
      ih { p with calls := p.calls ++ [{ callback := cb, argv := event_argv env arg,
                                          outcome := env.call p.calls cb (event_argv env arg) }] } hcb
    refine ⟨{ callback := cb, argv := event_argv env arg,
              outcome := env.call p.calls cb (event_argv env arg) } :: tr, ?_, ?_, ?_⟩
    · simp only [dispatch, hcb]
      rw [h1]
      simp
    · simp [h2]
    · intro inv hinv
      rcases List.mem_cons.mp hinv with h | h
      · rw [h]
      · exact h3 inv h

/-- With a callback stored, a wake ends normally: the queue is empty
afterwards, the batch has been handed over in order, nothing else changed. -/
theorem wake_some (env : Env) (cb : Callback) (p : Process)
    (hcb : p.grpc_logger_state.callback = some cb) :
    ∃ tr : List Invocation,
      LogMessagesCallback env p =
        .ok { p with grpc_logger_state := { p.grpc_logger_state with pending_args := [] },
                     calls := p.calls ++ tr } ∧
      tr.map Invocation.argv = p.grpc_logger_state.pending_args.map (event_argv env) ∧
      (∀ inv ∈ tr, inv.callback = cb) := by
  obtain ⟨tr, h1, h2, h3⟩ :=
    dispatch_some env cb p.grpc_logger_state.pending_args
      { p with grpc_logger_state := { p.grpc_logger_state with pending_args := [] } } hcb
  exact ⟨tr, h1, h2, h3⟩

/-- The first-in-first-out law of the bridge: from a state with a callback
stored, every sequence of pushes and wakes ends normally, and the events handed
over during the run, followed by the events still pending, are the events that
were pending at the start followed by the pushed events, in the same order. -/
theorem bridge_run_fifo (env : Env) (cb : Callback) (steps : List Step) :
    ∀ p0 : Process, p0.grpc_logger_state.callback = some cb →
      ∃ (p : Process) (tr : List Invocation) (delivered : List log_args),
        bridge_run env steps p0 = .ok p ∧
        p.grpc_logger_state.callback = some cb ∧
        p.calls = p0.calls ++ tr ∧
        tr.map Invocation.argv = delivered.map (event_argv env) ∧
        (∀ inv ∈ tr, inv.callback = cb) ∧
        delivered ++ p.grpc_logger_state.pending_args =
          p0.grpc_logger_state.pending_args ++ pushed steps := by
  induction steps with
  | nil =>
    intro p0 hcb
    exact ⟨p0, [], [], rfl, hcb, by simp, rfl, by simp, by simp [pushed]⟩
  | cons st rest ih =>
    intro p0 hcb
    cases st with
    | push args now =>
      obtain ⟨p, tr, d, h1, h2, h3, h4, h5, h6⟩ := ih (node_log_func args now p0) hcb
      refine ⟨p, tr, d, ?_, h2, h3, h4, h5, ?_⟩
      · simpa [bridge_run, Step.apply] using h1
      · rw [h6]
        simp [node_log_func, pushed]
    | wake =>
      obtain ⟨tr1, w1, w2, w3⟩ := wake_some env cb p0 hcb
      obtain ⟨p, tr, d, h1, h2, h3, h4, h5, h6⟩ :=
        ih { p0 with grpc_logger_state := { p0.grpc_logger_state with pending_args := [] },
                     calls := p0.calls ++ tr1 } hcb
      refine ⟨p, tr1 ++ tr, p0.grpc_logger_state.pending_args ++ d, ?_, h2, ?_, ?_, ?_, ?_⟩
      · simp only [bridge_run, Step.apply, w1]
        exact h1
      · rw [h3]
        simp
      · simp [w2, h4]
      · intro inv hinv
        rcases List.mem_append.mp hinv with h | h
        · exact w3 inv h
        · exact h5 inv h
      · rw [List.append_assoc, h6]
        simp [pushed]

/-- The state after a registration out of `init_logger` stores the callback. -/
theorem registered_callback (baseline f : Nat) :
    (registered baseline f).grpc_logger_state.callback = some { fn := f } := by
  simp [registered, SetDefaultLoggerCallback, init_logger, gpr_set_log_function]

/-- The state after a registration out of `init_logger` has an empty queue and
no invocation yet. -/
theorem registered_empty (baseline f : Nat) :
    (registered baseline f).grpc_logger_state.pending_args = [] ∧
      (registered baseline f).calls = [] := by
  simp [registered, SetDefaultLoggerCallback, init_logger, gpr_set_log_function]

/-! ## C1 -/

/-- C1 (no loss, no duplication): from the state built by `init_logger` and a
registration, every finite sequence of hook pushes and handler wakes ends
normally; the invocations made so far carry, one each, the events of some list
`delivered`, and the multiset of `delivered` together with the multiset of the
events still in `pending_args` is exactly the multiset of the events pushed. -/
theorem no_loss_no_duplication (env : Env) (baseline f : Nat) (steps : List Step) :
    ∃ (p : Process) (delivered : List log_args),
      bridge_run env steps (registered baseline f) = .ok p ∧
      p.calls.map Invocation.argv = delivered.map (event_argv env) ∧
      p.calls.length = delivered.length ∧
      (Multiset.ofList delivered + Multiset.ofList p.grpc_logger_state.pending_args
        = Multiset.ofList (pushed steps)) := by
  obtain ⟨p, tr, d, h1, _, h3, h4, _, h6⟩ :=
    bridge_run_fifo env { fn := f } steps (registered baseline f) (registered_callback baseline f)
  have he := registered_empty baseline f
  rw [he.1] at h6
  rw [he.2] at h3
  simp only [List.nil_append] at h3 h6
  refine ⟨p, d, h1, ?_, ?_, ?_⟩
  · rw [h3, h4]
  · rw [h3]
    have := congrArg List.length h4
    simpa using this
  · rw [← h6]
    simp

/-! ## Further lemmas on runs -/

/-- A run over a concatenation is the run over the first part followed by the
run over the second. -/
theorem bridge_run_append (env : Env) (a b : List Step) :
    ∀ p : Process, bridge_run env (a ++ b) p =
      match bridge_run env a p with
      | .ok p1 => bridge_run env b p1
      | .error e => .error e := by
  induction a with
  | nil => intro p; rfl
  | cons st rest ih =>
    intro p
    simp only [List.cons_append, bridge_run]
    cases h : st.apply env p with
    | ok p1 => simpa using ih p1
    | error e => rfl

/-- With a callback stored, one or more consecutive wakes hand over exactly the
events that were pending, in order, and leave the queue empty. -/
theorem wakes_run (env : Env) (cb : Callback) (k : Nat) :
    ∀ p : Process, p.grpc_logger_state.callback = some cb →
      ∃ tr : List Invocation,
        bridge_run env (List.replicate (k + 1) Step.wake) p =
          .ok { p with grpc_logger_state := { p.grpc_logger_state with pending_args := [] },
                       calls := p.calls ++ tr } ∧
        tr.map Invocation.argv = p.grpc_logger_state.pending_args.map (event_argv env) ∧
        (∀ inv ∈ tr, inv.callback = cb) := by
  induction k with
  | zero =>
    intro p hcb
    obtain ⟨tr, w1, w2, w3⟩ := wake_some env cb p hcb
    exact ⟨tr, by simp [bridge_run, Step.apply, w1], w2, w3⟩
  | succ k ih =>
    intro p hcb
    obtain ⟨tr, w1, w2, w3⟩ := wake_some env cb p hcb
    obtain ⟨tr2, v1, v2, _⟩ :=
      ih { p with grpc_logger_state := { p.grpc_logger_state with pending_args := [] },
                  calls := p.calls ++ tr } hcb
    have htr2 : tr2 = [] := by
      simpa using v2
    refine ⟨tr, ?_, w2, w3⟩
    rw [htr2] at v1
    rw [List.replicate_succ]
    simpa [bridge_run, Step.apply, w1] using v1

/-- Reading the invocation trace by position: when the trace carries the
events of `d` and `d` followed by the pending events is `ps`, the invocation at
a position inside the trace carries the event of `ps` at the same position. -/
theorem trace_index (env : Env) (tr : List Invocation) (d pend ps : List log_args)
    (h4 : tr.map Invocation.argv = d.map (event_argv env)) (h6 : d ++ pend = ps)
    (k : Nat) (e : log_args) (hk : k < tr.length) (he : ps[k]? = some e) :
    (tr[k]?).map Invocation.argv = some (event_argv env e) := by
  have hlen : tr.length = d.length := by
    have := congrArg List.length h4
    simpa using this
  have hd : d[k]? = some e := by
    rw [← h6, List.getElem?_append_left (by omega)] at he
    exact he
  have h := congrArg (fun l => l[k]?) h4
  simp only [List.getElem?_map] at h
  rw [h, hd]
  rfl

/-! ## C2 -/

/-- C2 (order preservation): let A be the i-th and B the j-th pushed event of a
run of pushes and wakes from the registered state, with i < j (the push of A
completes before the push of B begins).  The run ends normally; if the
invocation at position j has been made it carries B, and then the invocation at
the earlier position i has been made and carries A.  After any further
sequence of one or more wakes both invocations have been made, A at position i
and B at position j of the invocation sequence. -/
theorem order_preservation (env : Env) (baseline f : Nat) (steps : List Step)
    (i j : Nat) (A B : log_args) (hij : i < j)
    (hA : (pushed steps)[i]? = some A) (hB : (pushed steps)[j]? = some B) :
    ∃ p : Process,
      bridge_run env steps (registered baseline f) = .ok p ∧
      (∀ invB, p.calls[j]? = some invB →
        invB.argv = event_argv env B ∧
        ∃ invA, p.calls[i]? = some invA ∧ invA.argv = event_argv env A) ∧
      (∀ k : Nat, ∃ q : Process,
        bridge_run env (steps ++ List.replicate (k + 1) Step.wake) (registered baseline f) = .ok q ∧
        (q.calls[i]?).map Invocation.argv = some (event_argv env A) ∧
        (q.calls[j]?).map Invocation.argv = some (event_argv env B)) := by
  obtain ⟨p, tr, d, h1, h2, h3, h4, _, h6⟩ :=
    bridge_run_fifo env { fn := f } steps (registered baseline f) (registered_callback baseline f)
  have he := registered_empty baseline f
  rw [he.1] at h6
  rw [he.2] at h3
  simp only [List.nil_append] at h3 h6
  have hjlen : j < (pushed steps).length := by
    rcases Nat.lt_or_ge j (pushed steps).length with h | h
    · exact h
    · rw [List.getElem?_eq_none h] at hB
      exact absurd hB (by simp)
  refine ⟨p, h1, ?_, ?_⟩
  · intro invB hinvB
    have hj : j < tr.length := by
      rcases Nat.lt_or_ge j p.calls.length with h | h
      · rw [h3] at h; exact h
      · rw [List.getElem?_eq_none h] at hinvB
        exact absurd hinvB (by simp)
    have hB2 := trace_index env tr d _ _ h4 h6 j B hj hB
    have hA2 := trace_index env tr d _ _ h4 h6 i A (by omega) hA
    rw [← h3] at hB2 hA2
    rw [hinvB] at hB2
    constructor
    · simpa using hB2
    · cases hi : p.calls[i]? with
      | none => rw [hi] at hA2; simp at hA2
      | some invA =>
        rw [hi] at hA2
        exact ⟨invA, rfl, by simpa using hA2⟩
  · intro k
    obtain ⟨tr2, v1, v2, _⟩ := wakes_run env { fn := f } k p h2
    have hrun : bridge_run env (steps ++ List.replicate (k + 1) Step.wake)
        (registered baseline f) =
          .ok { p with grpc_logger_state := { p.grpc_logger_state with pending_args := [] },
                       calls := p.calls ++ tr2 } := by
      rw [bridge_run_append, h1]
      exact v1
    have hall : (tr ++ tr2).map Invocation.argv = (pushed steps).map (event_argv env) := by
      rw [List.map_append, h4, v2, ← List.map_append, h6]
    have hlen : (tr ++ tr2).length = (pushed steps).length := by
      have := congrArg List.length hall
      simpa using this
    have hilen : i < (tr ++ tr2).length := by omega
    have hjlen2 : j < (tr ++ tr2).length := by omega
    have hi := trace_index env (tr ++ tr2) (pushed steps) [] (pushed steps) hall (by simp) i A
      hilen hA
    have hj := trace_index env (tr ++ tr2) (pushed steps) [] (pushed steps) hall (by simp) j B
      hjlen2 hB
    refine ⟨_, hrun, ?_, ?_⟩
    · simpa [h3] using hi
    · simpa [h3] using hj

/-- A concrete run for C2: two pushes, then a wake. -/
theorem order_preservation_witness :
    (0 : Nat) < 1 ∧
    (pushed [Step.push sample_info sample_time, Step.push sample_info2 sample_time2,
        Step.wake])[0]? = some { core_args := sample_info, timestamp := sample_time } ∧
    ∃ p : Process,
      bridge_run sample_env [Step.push sample_info sample_time,
          Step.push sample_info2 sample_time2, Step.wake] (registered 2 0) = .ok p ∧
      (∀ invB, p.calls[1]? = some invB →
        invB.argv = event_argv sample_env { core_args := sample_info2, timestamp := sample_time2 } ∧
        ∃ invA, p.calls[0]? = some invA ∧
          invA.argv = event_argv sample_env { core_args := sample_info, timestamp := sample_time }) ∧
      (∀ k : Nat, ∃ q : Process,
        bridge_run sample_env ([Step.push sample_info sample_time,
          Step.push sample_info2 sample_time2, Step.wake] ++ List.replicate (k + 1) Step.wake)
          (registered 2 0) = .ok q ∧
        (q.calls[0]?).map Invocation.argv =
          some (event_argv sample_env { core_args := sample_info, timestamp := sample_time }) ∧
        (q.calls[1]?).map Invocation.argv =
          some (event_argv sample_env { core_args := sample_info2, timestamp := sample_time2 })) :=
  ⟨by decide, rfl,
    order_preservation sample_env 2 0
      [Step.push sample_info sample_time, Step.push sample_info2 sample_time2, Step.wake]
      0 1 { core_args := sample_info, timestamp := sample_time }
      { core_args := sample_info2, timestamp := sample_time2 } (by decide) rfl rfl⟩

/-! ## C3 -/

/-- On an unsigned 32-bit integer `t` the method `setLogVerbosity` completes
normally and stores `t` as the threshold. -/
theorem SetLogVerbosity_uint32 (t : Nat) (ht : t < 4294967296) (p : Process) :
    SetLogVerbosity (Value.number (Int.ofNat t)) p =
      (Completion.normal, gpr_set_log_verbosity t p) := by
  have h2 : ((t : Int) % 4294967296).toNat = t := by omega
  simp [SetLogVerbosity, Value.IsUint32, Value.ToUint32, h2, Nat.not_le.mpr ht]

/-- The hook itself has no gate: whatever the threshold, a call of
`node_log_func` enqueues its event and signals once.  The gate of C3 is the
engine's, applied before the hook is called. -/
theorem node_log_func_ungated (args : gpr_log_func_args) (now : gpr_timespec) (p : Process) :
    (node_log_func args now p).grpc_logger_state.pending_args =
      p.grpc_logger_state.pending_args ++ [{ core_args := args, timestamp := now }] ∧
    (node_log_func args now p).async_sends = p.async_sends + 1 :=
  ⟨rfl, rfl⟩

/-- C3 (severity gate at production time): after `setLogVerbosity(t)`, an event
of severity below `t` that the engine produces leaves the whole state as it
was: nothing is enqueued and the notifier is not signalled, so every later
sequence of operations (lowering the threshold included) runs exactly as if the
event had never been produced.  With the hook installed and a callback stored,
an event produced after the threshold has been set to `t2` at or below the
event's severity is enqueued, signalled once, and handed to the callback by the
next wake, after the events that were pending before it. -/
theorem severity_gate (env : Env) (p : Process) (cb : Callback) (t t2 : Nat)
    (e1 e2 : gpr_log_func_args) (now1 now2 : gpr_timespec)
    (hhook : p.g_log_func = gpr_log_func.node_log_func)
    (hcb : p.grpc_logger_state.callback = some cb)
    (ht : t < 4294967296) (ht2 : t2 < 4294967296)
    (h1 : e1.severity < t) (h2 : t2 ≤ e2.severity) :
    (SetLogVerbosity (Value.number (Int.ofNat t)) p).1 = Completion.normal ∧
    (SetLogVerbosity (Value.number (Int.ofNat t)) p).2.g_min_severity_to_print = t ∧
    gpr_log_message e1 now1 (SetLogVerbosity (Value.number (Int.ofNat t)) p).2 =
      (SetLogVerbosity (Value.number (Int.ofNat t)) p).2 ∧
    (∀ ops : List Op,
      run env ops (gpr_log_message e1 now1 (SetLogVerbosity (Value.number (Int.ofNat t)) p).2) =
        run env ops (SetLogVerbosity (Value.number (Int.ofNat t)) p).2) ∧
    (gpr_log_message e2 now2
        (SetLogVerbosity (Value.number (Int.ofNat t2))
          (gpr_log_message e1 now1
            (SetLogVerbosity (Value.number (Int.ofNat t)) p).2)).2).grpc_logger_state.pending_args =
      p.grpc_logger_state.pending_args ++ [({ core_args := e2, timestamp := now2 } : log_args)] ∧
    (gpr_log_message e2 now2
        (SetLogVerbosity (Value.number (Int.ofNat t2))
          (gpr_log_message e1 now1
            (SetLogVerbosity (Value.number (Int.ofNat t)) p).2)).2).async_sends =
      p.async_sends + 1 ∧
    ∃ (q : Process) (tr : List Invocation),
      LogMessagesCallback env
        (gpr_log_message e2 now2
          (SetLogVerbosity (Value.number (Int.ofNat t2))
            (gpr_log_message e1 now1
              (SetLogVerbosity (Value.number (Int.ofNat t)) p).2)).2) = .ok q ∧
      q.grpc_logger_state.pending_args = [] ∧
      q.calls = p.calls ++ tr ∧
      tr.map Invocation.argv =
        (p.grpc_logger_state.pending_args ++
          [({ core_args := e2, timestamp := now2 } : log_args)]).map (event_argv env) := by
  have hgate : gpr_log_message e1 now1 (gpr_set_log_verbosity t p) = gpr_set_log_verbosity t p := by
    simp [gpr_log_message, gpr_set_log_verbosity, h1]
  have hpass : gpr_log_message e2 now2 (gpr_set_log_verbosity t2 (gpr_set_log_verbosity t p)) =
      node_log_func e2 now2 (gpr_set_log_verbosity t2 (gpr_set_log_verbosity t p)) := by
    simp [gpr_log_message, gpr_set_log_verbosity, hhook, Nat.not_lt.mpr h2]
  rw [SetLogVerbosity_uint32 t ht p]
  dsimp only
  rw [hgate, SetLogVerbosity_uint32 t2 ht2]
  dsimp only
  rw [hpass]
  refine ⟨rfl, rfl, rfl, fun _ => rfl, rfl, rfl, ?_⟩
  obtain ⟨tr, w1, w2, _⟩ := wake_some env cb
    (node_log_func e2 now2 (gpr_set_log_verbosity t2 (gpr_set_log_verbosity t p))) hcb
  exact ⟨_, tr, w1, rfl, rfl, w2⟩

/-- The scenario of C3: threshold ERROR, an INFO event is produced, the
threshold is lowered to INFO, a second INFO event is produced, the handler
wakes: the callback sees the second event only. -/
theorem severity_gate_witness :
    (registered 0 0).g_log_func = gpr_log_func.node_log_func ∧
    (registered 0 0).grpc_logger_state.callback = some { fn := 0 } ∧
    sample_info.severity < GPR_LOG_SEVERITY_ERROR ∧
    GPR_LOG_SEVERITY_INFO ≤ sample_info2.severity ∧
    ∃ q : Process,
      LogMessagesCallback sample_env
        (gpr_log_message sample_info2 sample_time2
          (SetLogVerbosity (Value.number (Int.ofNat GPR_LOG_SEVERITY_INFO))
            (gpr_log_message sample_info sample_time
              (SetLogVerbosity (Value.number (Int.ofNat GPR_LOG_SEVERITY_ERROR))
                (registered 0 0)).2)).2) = .ok q ∧
      q.calls.map Invocation.argv =
        [event_argv sample_env { core_args := sample_info2, timestamp := sample_time2 }] := by
  refine ⟨rfl, rfl, by decide, by decide, ?_⟩
  obtain ⟨_, _, _, _, _, _, q, tr, hq, _, hc, htr⟩ :=
    severity_gate sample_env (registered 0 0) { fn := 0 }
      GPR_LOG_SEVERITY_ERROR GPR_LOG_SEVERITY_INFO sample_info sample_info2
      sample_time sample_time2 rfl rfl (by decide) (by decide) (by decide) (by decide)
  refine ⟨q, hq, ?_⟩
  rw [hc, (registered_empty 0 0).2, List.nil_append, htr, (registered_empty 0 0).1]
  rfl

/-! ## C4 -/

/-- Once `logger_set` holds, further registrations only replace the callback:
the flag, the engine's log function, the count of hook installations, the
threshold, the queue and the invocations stay as they are. -/
theorem register_all_installed (fs : List Nat) :
    ∀ (p : Process) (f0 : Nat), p.grpc_logger_state.logger_set = true →
      p.grpc_logger_state.callback = some { fn := f0 } →
      register_all fs p =
        { p with grpc_logger_state :=
            { p.grpc_logger_state with
              callback := some { fn := (f0 :: fs).getLast (List.cons_ne_nil f0 fs) } } } := by
  induction fs with
  | nil =>
    intro p f0 _ hcb
    cases p with
    | mk st a b c d e =>
      cases st with
      | mk cb pa ls =>
        simp only at hcb
        subst hcb
        rfl
  | cons f fs ih =>
    intro p f0 hset _
    have hstep : (SetDefaultLoggerCallback (Value.function f) p).2 =
        { p with grpc_logger_state := { p.grpc_logger_state with callback := some { fn := f } } } := by
      simp [SetDefaultLoggerCallback, hset]
    have hih := ih
      { p with grpc_logger_state := { p.grpc_logger_state with callback := some { fn := f } } }
      f hset rfl
    simp only [register_all]
    rw [hstep, hih]
    simp

/-- No operation clears `logger_set`. -/
theorem logger_set_stable (env : Env) (op : Op) (q q1 : Process)
    (hset : q.grpc_logger_state.logger_set = true) (hop : op.apply env q = .ok q1) :
    q1.grpc_logger_state.logger_set = true := by
  cases op with
  | setDefaultLoggerCallback v =>
    simp only [Op.apply, Except.ok.injEq] at hop
    subst hop
    cases v <;> simp [SetDefaultLoggerCallback, hset]
  | setLogVerbosity v =>
    simp only [Op.apply, Except.ok.injEq] at hop
    subst hop
    simp only [SetLogVerbosity]
    split <;> simp [gpr_set_log_verbosity, hset]
  | log args now =>
    simp only [Op.apply, Except.ok.injEq] at hop
    subst hop
    simp only [gpr_log_message]
    split
    · exact hset
    · split
      · exact hset
      · simp [node_log_func, hset]
  | wake =>
    simp only [Op.apply] at hop
    cases hcb : q.grpc_logger_state.callback with
    | none =>
      cases hpa : q.grpc_logger_state.pending_args with
      | nil =>
        simp [LogMessagesCallback, hpa, dispatch] at hop
        subst hop
        exact hset
      | cons a as =>
        simp [LogMessagesCallback, hpa, dispatch, hcb] at hop
    | some cb =>
      obtain ⟨tr, w1, _, _⟩ := wake_some env cb q hcb
      rw [w1] at hop
      simp only [Except.ok.injEq] at hop
      subst hop
      exact hset

/-- C4 (one-way installation): `init_logger` leaves `logger_set` false and the
engine unhooked.  The first successful registration hooks `node_log_func` into
the engine and sets `logger_set`; after any number of further successful
registrations the hook has still been installed exactly once, `logger_set` is
still true, and the stored callback is the function of the most recent
registration.  No operation of the logger turns `logger_set` back to false. -/
theorem one_way_installation (env : Env) (baseline f1 : Nat) (fs : List Nat) :
    (init_logger baseline).grpc_logger_state.logger_set = false ∧
    (init_logger baseline).set_log_function_calls = 0 ∧
    (∀ (f : Nat) (q : Process),
      (SetDefaultLoggerCallback (Value.function f) q).1 = Completion.normal) ∧
    (register_all [f1] (init_logger baseline)).grpc_logger_state.logger_set = true ∧
    (register_all [f1] (init_logger baseline)).set_log_function_calls = 1 ∧
    (register_all [f1] (init_logger baseline)).g_log_func = gpr_log_func.node_log_func ∧
    (register_all (f1 :: fs) (init_logger baseline)).grpc_logger_state.logger_set = true ∧
    (register_all (f1 :: fs) (init_logger baseline)).set_log_function_calls = 1 ∧
    (register_all (f1 :: fs) (init_logger baseline)).g_log_func = gpr_log_func.node_log_func ∧
    (register_all (f1 :: fs) (init_logger baseline)).grpc_logger_state.callback =
      some { fn := (f1 :: fs).getLast (List.cons_ne_nil f1 fs) } ∧
    (∀ (op : Op) (q q1 : Process), q.grpc_logger_state.logger_set = true →
      op.apply env q = .ok q1 → q1.grpc_logger_state.logger_set = true) := by
  have hfirst : (SetDefaultLoggerCallback (Value.function f1) (init_logger baseline)).2 =
      { grpc_logger_state :=
          { callback := some { fn := f1 }, pending_args := [], logger_set := true },
        g_log_func := gpr_log_func.node_log_func,
        g_min_severity_to_print := baseline,
        set_log_function_calls := 1,
        async_sends := 0,
        calls := [] } := by
    simp [SetDefaultLoggerCallback, init_logger, gpr_set_log_function]
  have hall := register_all_installed fs
    (SetDefaultLoggerCallback (Value.function f1) (init_logger baseline)).2 f1
    (by rw [hfirst]) (by rw [hfirst])
  refine ⟨rfl, rfl, ?_, ?_, ?_, ?_, ?_, ?_, ?_, ?_, ?_⟩
  · intro f q
    rfl
  · simp [register_all, hfirst]
  · simp [register_all, hfirst]
  · simp [register_all, hfirst]
  · simp only [register_all]
    rw [hall, hfirst]
  · simp only [register_all]
    rw [hall, hfirst]
  · simp only [register_all]
    rw [hall, hfirst]
  · simp only [register_all]
    rw [hall, hfirst]
  · intro op q q1 hset hop
    exact logger_set_stable env op q q1 hset hop

/-- Three registrations in a row for C4, and a later wake that keeps
`logger_set`. -/
theorem one_way_installation_witness :
    (register_all [5, 6, 7] (init_logger 2)).set_log_function_calls = 1 ∧
    (register_all [5, 6, 7] (init_logger 2)).grpc_logger_state.callback = some { fn := 7 } ∧
    (register_all [5, 6, 7] (init_logger 2)).grpc_logger_state.logger_set = true ∧
    Op.wake.apply sample_env (register_all [5, 6, 7] (init_logger 2)) =
      .ok (register_all [5, 6, 7] (init_logger 2)) ∧
    (register_all [5, 6, 7] (init_logger 2)).grpc_logger_state.logger_set = true :=
  have h := one_way_installation sample_env 2 5 [6, 7]
  ⟨h.2.2.2.2.2.2.2.1, h.2.2.2.2.2.2.2.2.2.1, rfl, rfl,
    h.2.2.2.2.2.2.2.2.2.2 Op.wake (register_all [5, 6, 7] (init_logger 2))
      (register_all [5, 6, 7] (init_logger 2)) rfl rfl⟩

/-! ## C5 -/

/-- C5 (registration rejects non-callables atomically): on an argument that is
not a function `setDefaultLoggerCallback` throws its type error and returns the
state it was given, whole; and it completes other than normally only on an
argument that is not a function. -/
theorem registration_rejects_non_callables (v : Value) (p : Process) :
    (v.IsFunction = false →
      SetDefaultLoggerCallback v p =
        (Completion.throwTypeError "setDefaultLoggerCallback's argument must be a function", p)) ∧
    ((SetDefaultLoggerCallback v p).1 ≠ Completion.normal → v.IsFunction = false) := by
  cases v <;> simp [SetDefaultLoggerCallback, Value.IsFunction]

/-- A string argument for C5, on a state with a pending event. -/
theorem registration_rejects_non_callables_witness :
    (Value.string "log").IsFunction = false ∧
    SetDefaultLoggerCallback (Value.string "log")
        (node_log_func sample_info sample_time (registered 2 0)) =
      (Completion.throwTypeError "setDefaultLoggerCallback's argument must be a function",
        node_log_func sample_info sample_time (registered 2 0)) ∧
    (SetDefaultLoggerCallback (Value.string "log")
        (node_log_func sample_info sample_time (registered 2 0))).1 ≠ Completion.normal :=
  ⟨rfl,
    (registration_rejects_non_callables (Value.string "log")
      (node_log_func sample_info sample_time (registered 2 0))).1 rfl,
    by simp [SetDefaultLoggerCallback]⟩

/-! ## C6 -/

/-- C6, as stated, fails: 7 is none of the three levels, yet
`setLogVerbosity(7)` completes normally and 7 replaces the threshold. -/
theorem malformed_level_accepted :
    Value.number 7 ≠ Value.number (Int.ofNat GPR_LOG_SEVERITY_DEBUG) ∧
    Value.number 7 ≠ Value.number (Int.ofNat GPR_LOG_SEVERITY_INFO) ∧
    Value.number 7 ≠ Value.number (Int.ofNat GPR_LOG_SEVERITY_ERROR) ∧
    (init_logger GPR_LOG_SEVERITY_ERROR).g_min_severity_to_print = 2 ∧
    (SetLogVerbosity (Value.number 7) (init_logger GPR_LOG_SEVERITY_ERROR)).1 =
      Completion.normal ∧
    (SetLogVerbosity (Value.number 7)
      (init_logger GPR_LOG_SEVERITY_ERROR)).2.g_min_severity_to_print = 7 := by
  refine ⟨by decide, by decide, by decide, rfl, rfl, rfl⟩

/-- C6, amended: an argument that is not an unsigned 32-bit integer makes
`setLogVerbosity` throw its type error and leaves the whole state, threshold
included, as it was; an unsigned 32-bit integer, one of the three levels or
not, is accepted and becomes the threshold, nothing else changing. -/
theorem verbosity_validation (v : Value) (p : Process) :
    (v.IsUint32 = false →
      SetLogVerbosity v p =
        (Completion.throwTypeError "setLogVerbosity's argument must be a number", p)) ∧
    (v.IsUint32 = true →
      SetLogVerbosity v p =
        (Completion.normal, { p with g_min_severity_to_print := v.ToUint32 })) ∧
    (∀ n : Nat, v = Value.number (Int.ofNat n) → n < 4294967296 →
      v.IsUint32 = true ∧ v.ToUint32 = n) := by
  refine ⟨?_, ?_, ?_⟩
  · intro h
    simp [SetLogVerbosity, h]
  · intro h
    simp [SetLogVerbosity, h, gpr_set_log_verbosity]
  · intro n hv hn
    subst hv
    have h2 : ((n : Int) % 4294967296).toNat = n := by omega
    simp [Value.IsUint32, Value.ToUint32, h2, hn]

/-- Three arguments for the amended C6: a string and a negative number are
rejected with the state unchanged, the out-of-range level 7 is stored. -/
theorem verbosity_validation_witness :
    SetLogVerbosity (Value.string "INFO") (init_logger 2) =
      (Completion.throwTypeError "setLogVerbosity's argument must be a number",
        init_logger 2) ∧
    SetLogVerbosity (Value.number (-1)) (init_logger 2) =
      (Completion.throwTypeError "setLogVerbosity's argument must be a number",
        init_logger 2) ∧
    SetLogVerbosity (Value.number 7) (init_logger 2) =
      (Completion.normal, { init_logger 2 with g_min_severity_to_print := 7 }) ∧
    (Value.number (Int.ofNat 7)).IsUint32 = true ∧ (Value.number (Int.ofNat 7)).ToUint32 = 7 :=
  ⟨(verbosity_validation (Value.string "INFO") (init_logger 2)).1 rfl,
    (verbosity_validation (Value.number (-1)) (init_logger 2)).1 rfl,
    (verbosity_validation (Value.number 7) (init_logger 2)).2.1 rfl,
    (verbosity_validation (Value.number (Int.ofNat 7)) (init_logger 2)).2.2 7 rfl (by decide)⟩

/-! ## C7 -/

/-- The dispatch loop never touches `grpc_logger_state`. -/
theorem dispatch_logger_state (env : Env) (args : List log_args) :
    ∀ p q : Process, dispatch env args p = .ok q →
      q.grpc_logger_state = p.grpc_logger_state := by
  induction args with
  | nil =>
    intro p q h
    simp only [dispatch, Except.ok.injEq] at h
    rw [← h]
  | cons arg args ih =>
    intro p q h
    cases hcb : p.grpc_logger_state.callback with
    | none => simp [dispatch, hcb] at h
    | some cb =>
      simp only [dispatch, hcb] at h
      have := ih
        { p with calls := p.calls ++ [{ callback := cb, argv := event_argv env arg,
                                        outcome := env.call p.calls cb (event_argv env arg) }] }
        q h
      rw [this]

/-- A wake of a state whose queue is empty returns that very state. -/
theorem wake_empty (env : Env) (p : Process) (h : p.grpc_logger_state.pending_args = []) :
    LogMessagesCallback env p = .ok p := by
  cases p with
  | mk st a b c d e =>
    cases st with
    | mk cb pa ls =>
      simp only at h
      subst h
      rfl

/-- After a wake that ended normally the queue is empty. -/
theorem wake_leaves_empty (env : Env) (p q : Process) (h : LogMessagesCallback env p = .ok q) :
    q.grpc_logger_state.pending_args = [] := by
  have := dispatch_logger_state env p.grpc_logger_state.pending_args
    { p with grpc_logger_state := { p.grpc_logger_state with pending_args := [] } } q h
  rw [this]

/-- C7 (empty drain is a no-op): a wake of a state whose queue is empty ends
normally and returns the state unchanged, so it makes no invocation and leaves
queue, callback and `logger_set` as they were (this holds with or without a
stored callback).  Consequently two consecutive wakes do exactly what one wake
does, from every state. -/
theorem empty_drain_noop (env : Env) (p : Process)
    (h : p.grpc_logger_state.pending_args = []) :
    LogMessagesCallback env p = .ok p ∧
    (∀ q : Process, bridge_run env [Step.wake, Step.wake] q = bridge_run env [Step.wake] q) := by
  refine ⟨wake_empty env p h, ?_⟩
  intro q
  simp only [bridge_run, Step.apply]
  cases hq : LogMessagesCallback env q with
  | error e => rfl
  | ok q1 =>
    simp only
    rw [wake_empty env q1 (wake_leaves_empty env q q1 hq)]

/-- The state right after `init_logger` for C7: empty queue, no callback. -/
theorem empty_drain_noop_witness :
    (init_logger 2).grpc_logger_state.pending_args = [] ∧
    LogMessagesCallback sample_env (init_logger 2) = .ok (init_logger 2) :=
  ⟨rfl, (empty_drain_noop sample_env (init_logger 2) rfl).1⟩

/-! ## C8 -/

/-- C8, as stated, fails in two of the five arguments.  A hook call with line
-1 is handed to the callback with line 4294967295.  A hook call whose file
pointer designated the text call.c during the call is handed over with the text
that stands behind that pointer when the handler runs, here other text because
the buffer was used again in between. -/
theorem delivered_differs_from_produced :
    (sample_negative_line.line = -1 ∧
      ∃ p : Process,
        bridge_run sample_env [Step.push sample_negative_line sample_time, Step.wake]
          (registered 2 0) = .ok p ∧
        p.calls.map Invocation.argv =
          [[Value.string "call.c", Value.number 4294967295, Value.string "I",
            Value.string "m1", Value.date 1500000000250]]) ∧
    (memory_at_call sample_info.file = "call.c" ∧
      ∃ p : Process,
        bridge_run { sample_env with c_str := memory_reused }
          [Step.push sample_info sample_time, Step.wake] (registered 2 0) = .ok p ∧
        p.calls.map Invocation.argv =
          [[Value.string "reused", Value.number 42, Value.string "I",
            Value.string "m1", Value.date 1500000000250]]) :=
  ⟨⟨rfl, _, rfl, rfl⟩, ⟨rfl, _, rfl, rfl⟩⟩

/-- C8, amended: let the k-th hook call of a run of pushes and wakes from the
registered state be made with `args` while the clock reads `now`.  The run ends
normally; the k-th invocation, once made, is a call of the registered function
with exactly five arguments, in this order: the text behind the `file` pointer
as the handler finds it, the line converted to `uint32_t`, the severity string,
the message as it was during the call, and `now` in milliseconds.  If the
buffer behind the `file` pointer still holds what it held during the call
(`at_call`) and the line is not negative, these are the produced file and line
themselves.  A further wake makes the invocation if it was not made yet, and
every invocation of the run carries the five arguments built from one pushed
event. -/
theorem delivered_equals_produced (env : Env) (baseline f : Nat) (steps : List Step)
    (k : Nat) (args : gpr_log_func_args) (now : gpr_timespec) (at_call : Nat → String)
    (hk : (pushed steps)[k]? = some { core_args := args, timestamp := now }) :
    ∃ p : Process,
      bridge_run env steps (registered baseline f) = .ok p ∧
      (∀ inv, p.calls[k]? = some inv →
        inv.callback = { fn := f } ∧
        inv.argv =
          [Value.string (env.c_str args.file), Value.number (args.line % 4294967296),
           Value.string (env.gpr_log_severity_string args.severity),
           Value.string args.message, Value.date (env.TimespecToMilliseconds now)] ∧
        (env.c_str args.file = at_call args.file → 0 ≤ args.line → args.line < 2147483648 →
          inv.argv =
            [Value.string (at_call args.file), Value.number args.line,
             Value.string (env.gpr_log_severity_string args.severity),
             Value.string args.message, Value.date (env.TimespecToMilliseconds now)])) ∧
      (∃ q : Process,
        bridge_run env (steps ++ [Step.wake]) (registered baseline f) = .ok q ∧
        (q.calls[k]?).map Invocation.argv =
          some [Value.string (env.c_str args.file), Value.number (args.line % 4294967296),
                Value.string (env.gpr_log_severity_string args.severity),
                Value.string args.message, Value.date (env.TimespecToMilliseconds now)]) ∧
      (∀ inv ∈ p.calls, inv.argv.length = 5 ∧
        ∃ e ∈ pushed steps, inv.argv = event_argv env e) := by
  have hargv : event_argv env { core_args := args, timestamp := now } =
      [Value.string (env.c_str args.file), Value.number (args.line % 4294967296),
       Value.string (env.gpr_log_severity_string args.severity),
       Value.string args.message, Value.date (env.TimespecToMilliseconds now)] := rfl
  obtain ⟨p, tr, d, h1, h2, h3, h4, h5, h6⟩ :=
    bridge_run_fifo env { fn := f } steps (registered baseline f) (registered_callback baseline f)
  have he := registered_empty baseline f
  rw [he.1] at h6
  rw [he.2] at h3
  simp only [List.nil_append] at h3 h6
  have hklen : k < (pushed steps).length := by
    rcases Nat.lt_or_ge k (pushed steps).length with h | h
    · exact h
    · rw [List.getElem?_eq_none h] at hk
      exact absurd hk (by simp)
  refine ⟨p, h1, ?_, ?_, ?_⟩
  · intro inv hinv
    have hkt : k < tr.length := by
      rcases Nat.lt_or_ge k p.calls.length with h | h
      · rw [h3] at h; exact h
      · rw [List.getElem?_eq_none h] at hinv
        exact absurd hinv (by simp)
    have hidx := trace_index env tr d _ _ h4 h6 k _ hkt hk
    rw [← h3, hinv, hargv] at hidx
    have hinvargv : inv.argv =
        [Value.string (env.c_str args.file), Value.number (args.line % 4294967296),
         Value.string (env.gpr_log_severity_string args.severity),
         Value.string args.message, Value.date (env.TimespecToMilliseconds now)] := by
      simpa using hidx
    refine ⟨h5 inv ?_, hinvargv, ?_⟩
    · rw [← h3]
      exact List.getElem?_mem hinv
    · intro hfile h0 hlt
      have hmod : args.line % 4294967296 = args.line :=
        Int.emod_eq_of_lt h0 (by omega)
      rw [hinvargv, hfile, hmod]
  · obtain ⟨tr2, v1, v2, _⟩ := wakes_run env { fn := f } 0 p h2
    have hrun : bridge_run env (steps ++ [Step.wake]) (registered baseline f) =
        .ok { p with grpc_logger_state := { p.grpc_logger_state with pending_args := [] },
                     calls := p.calls ++ tr2 } := by
      rw [bridge_run_append, h1]
      exact v1
    have hall : (tr ++ tr2).map Invocation.argv = (pushed steps).map (event_argv env) := by
      rw [List.map_append, h4, v2, ← List.map_append, h6]
    have hlen : (tr ++ tr2).length = (pushed steps).length := by
      have := congrArg List.length hall
      simpa using this
    have hklen2 : k < (tr ++ tr2).length := by omega
    have hidx := trace_index env (tr ++ tr2) (pushed steps) [] (pushed steps) hall (by simp) k _
      hklen2 hk
    rw [hargv] at hidx
    refine ⟨_, hrun, ?_⟩
    simpa [h3] using hidx
  · intro inv hinv
    rw [h3] at hinv
    have hmem : inv.argv ∈ tr.map Invocation.argv := List.mem_map_of_mem _ hinv
    rw [h4] at hmem
    obtain ⟨e, hed, hee⟩ := List.mem_map.mp hmem
    refine ⟨?_, e, ?_, hee.symm⟩
    · rw [← hee]
      rfl
    · rw [← h6]
      exact List.mem_append_left _ hed

/-- A concrete run for the amended C8: a push at `sample_time` with the file
buffer left alone, a later push, then a wake. -/
theorem delivered_equals_produced_witness :
    (pushed [Step.push sample_info sample_time, Step.push sample_info2 sample_time2,
        Step.wake])[0]? = some { core_args := sample_info, timestamp := sample_time } ∧
    sample_env.c_str sample_info.file = memory_at_call sample_info.file ∧
    0 ≤ sample_info.line ∧ sample_info.line < 2147483648 ∧
    ∃ p : Process,
      bridge_run sample_env [Step.push sample_info sample_time,
          Step.push sample_info2 sample_time2, Step.wake] (registered 2 0) = .ok p ∧
      (∀ inv, p.calls[0]? = some inv →
        inv.callback = { fn := 0 } ∧
        inv.argv =
          [Value.string "call.c", Value.number 42, Value.string "I", Value.string "m1",
           Value.date 1500000000250]) := by
  refine ⟨rfl, rfl, by decide, by decide, ?_⟩
  obtain ⟨p, hp, hinv, _, _⟩ :=
    delivered_equals_produced sample_env 2 0
      [Step.push sample_info sample_time, Step.push sample_info2 sample_time2, Step.wake]
      0 sample_info sample_time memory_at_call rfl
  refine ⟨p, hp, ?_⟩
  intro inv h
  exact ⟨(hinv inv h).1, (hinv inv h).2.2 rfl (by decide) (by decide)⟩

/-! ## C9 -/

/-- A run of pushes only appends the pushed events to the queue and signals
once per push. -/
theorem pushes_run (env : Env) (evs : List (gpr_log_func_args × gpr_timespec)) :
    ∀ p : Process,
      bridge_run env (evs.map (fun e => Step.push e.1 e.2)) p =
        .ok { p with
              grpc_logger_state :=
                { p.grpc_logger_state with
                  pending_args := p.grpc_logger_state.pending_args ++
                    evs.map (fun e => ({ core_args := e.1, timestamp := e.2 } : log_args)) },
              async_sends := p.async_sends + evs.length } := by
  induction evs with
  | nil =>
    intro p
    cases p with
    | mk st a b c d e =>
      cases st with
      | mk cb pa ls => simp [bridge_run]
  | cons ev evs ih =>
    intro p
    simp only [List.map_cons, bridge_run, Step.apply]
    rw [ih]
    simp [node_log_func, Nat.add_assoc, Nat.add_comm 1]

/-- C9 (full drain makes coalescing safe): from a state with a stored callback
and n pending events a single wake ends normally, makes exactly n invocations,
one per pending event in queue order, and leaves `pending_args` empty.  Hence
pushes of the events `evs` followed by any number k + 1 of wakes make exactly
one invocation per event that was pending or pushed, whatever k is, and leave
the queue empty. -/
theorem full_drain_coalescing (env : Env) (p : Process) (cb : Callback)
    (hcb : p.grpc_logger_state.callback = some cb)
    (evs : List (gpr_log_func_args × gpr_timespec)) (k : Nat) :
    (∃ q : Process,
      LogMessagesCallback env p = .ok q ∧
      q.grpc_logger_state.pending_args = [] ∧
      q.calls.length = p.calls.length + p.grpc_logger_state.pending_args.length ∧
      q.calls.map Invocation.argv =
        p.calls.map Invocation.argv ++ p.grpc_logger_state.pending_args.map (event_argv env)) ∧
    (∃ q : Process,
      bridge_run env (evs.map (fun e => Step.push e.1 e.2) ++ List.replicate (k + 1) Step.wake) p
        = .ok q ∧
      q.grpc_logger_state.pending_args = [] ∧
      q.calls.length = p.calls.length + p.grpc_logger_state.pending_args.length + evs.length ∧
      q.calls.map Invocation.argv =
        p.calls.map Invocation.argv ++
          (p.grpc_logger_state.pending_args ++
            evs.map (fun e => ({ core_args := e.1, timestamp := e.2 } : log_args))).map
              (event_argv env) ∧
      q.async_sends = p.async_sends + evs.length) := by
  constructor
  · obtain ⟨tr, w1, w2, _⟩ := wake_some env cb p hcb
    have hlen : tr.length = p.grpc_logger_state.pending_args.length := by
      have := congrArg List.length w2
      simpa using this
    refine ⟨_, w1, rfl, ?_, ?_⟩
    · simp [hlen]
    · simp [w2]
  · obtain ⟨tr, w1, w2, _⟩ := wakes_run env cb k
      { p with
        grpc_logger_state :=
          { p.grpc_logger_state with
            pending_args := p.grpc_logger_state.pending_args ++
              evs.map (fun e => ({ core_args := e.1, timestamp := e.2 } : log_args)) },
        async_sends := p.async_sends + evs.length } hcb
    have hlen : tr.length = p.grpc_logger_state.pending_args.length + evs.length := by
      have := congrArg List.length w2
      simpa using this
    have hrun : bridge_run env
        (evs.map (fun e => Step.push e.1 e.2) ++ List.replicate (k + 1) Step.wake) p =
          .ok { p with
                grpc_logger_state := { p.grpc_logger_state with pending_args := [] },
                async_sends := p.async_sends + evs.length,
                calls := p.calls ++ tr } := by
      rw [bridge_run_append, pushes_run]
      exact w1
    refine ⟨_, hrun, rfl, ?_, ?_, rfl⟩
    · simp [hlen, Nat.add_assoc]
    · simp only [List.map_append, w2]

/-- The burst of C9: 100 pushes into the registered state, then three wakes,
make exactly 100 invocations. -/
theorem full_drain_coalescing_witness :
    (registered 2 0).grpc_logger_state.callback = some { fn := 0 } ∧
    ∃ q : Process,
      bridge_run sample_env
        ((List.replicate 100 (sample_info, sample_time)).map (fun e => Step.push e.1 e.2) ++
          List.replicate (2 + 1) Step.wake) (registered 2 0) = .ok q ∧
      q.grpc_logger_state.pending_args = [] ∧
      q.calls.length = 100 := by
  refine ⟨rfl, ?_⟩
  obtain ⟨_, q, hq, hpend, hlen, _, _⟩ :=
    full_drain_coalescing sample_env (registered 2 0) { fn := 0 } rfl
      (List.replicate 100 (sample_info, sample_time)) 2
  refine ⟨q, hq, hpend, ?_⟩
  rw [hlen, (registered_empty 2 0).1, (registered_empty 2 0).2]
  simp

/-! ## C10 -/

/-- A call into the module neither reads nor writes the invocation trace. -/
theorem reentry_apply_calls (r : Reentry) (p : Process) (c : List Invocation) :
    r.apply { p with calls := c } = { r.apply p with calls := c } := by
  cases r with
  | setDefaultLoggerCallback v =>
    cases v with
    | function f =>
      cases h : p.grpc_logger_state.logger_set <;>
        simp [Reentry.apply, SetDefaultLoggerCallback, gpr_set_log_function, h]
    | undefined => rfl
    | null => rfl
    | boolean b => rfl
    | number i => rfl
    | non_integral => rfl
    | string s => rfl
    | object => rfl
    | date ms => rfl
  | setLogVerbosity v =>
    simp only [Reentry.apply, SetLogVerbosity]
    split <;> rfl
  | emit args now =>
    cases hf : p.g_log_func <;> simp [Reentry.apply, engine_emit, hf, node_log_func]

/-- A sequence of calls into the module neither reads nor writes the
invocation trace. -/
theorem reentry_foldl_calls (rs : List Reentry) :
    ∀ (p : Process) (c : List Invocation),
      rs.foldl (fun q r => r.apply q) { p with calls := c } =
        { rs.foldl (fun q r => r.apply q) p with calls := c } := by
  induction rs with
  | nil => intro p c; rfl
  | cons r rs ih =>
    intro p c
    simp only [List.foldl_cons]
    rw [reentry_apply_calls, ih]

/-- A call into the module never removes the stored callback. -/
theorem reentry_apply_callback (r : Reentry) (p : Process)
    (h : ∃ cb, p.grpc_logger_state.callback = some cb) :
    ∃ cb, (r.apply p).grpc_logger_state.callback = some cb := by
  cases r with
  | setDefaultLoggerCallback v =>
    cases v with
    | function f => exact ⟨{ fn := f }, by simp [Reentry.apply, SetDefaultLoggerCallback]⟩
    | undefined => exact h
    | null => exact h
    | boolean b => exact h
    | number i => exact h
    | non_integral => exact h
    | string s => exact h
    | object => exact h
    | date ms => exact h
  | setLogVerbosity v =>
    simp only [Reentry.apply, SetLogVerbosity]
    split <;> exact h
  | emit args now =>
    simp only [Reentry.apply, engine_emit]
    cases hf : p.g_log_func <;> exact h

/-- A sequence of calls into the module never removes the stored callback. -/
theorem reentry_foldl_callback (rs : List Reentry) :
    ∀ p : Process, (∃ cb, p.grpc_logger_state.callback = some cb) →
      ∃ cb, (rs.foldl (fun q r => r.apply q) p).grpc_logger_state.callback = some cb := by
  induction rs with
  | nil => intro p h; exact h
  | cons r rs ih =>
    intro p h
    simp only [List.foldl_cons]
    exact ih _ (reentry_apply_callback r p h)

/-- One iteration of the loop with scripts, when the run of the user's function
does not end the process: the invocation is recorded, the calls made by the
function take effect, the loop goes on. -/
theorem dispatch_reentrant_cons (env : Env) (js : Nat → Callback → List Value → Script)
    (arg : log_args) (args : List log_args) (b : Process) (c : List Invocation)
    (cb : Callback) (hcb : b.grpc_logger_state.callback = some cb)
    (hend : (js c.length cb (event_argv env arg)).ending ≠ Ending.uncaught) :
    dispatch_reentrant env js (arg :: args) { b with calls := c } =
      dispatch_reentrant env js args
        { (js c.length cb (event_argv env arg)).reentry.foldl (fun q r => r.apply q) b with
          calls := c ++ [{ callback := cb, argv := event_argv env arg,
                           outcome := (js c.length cb (event_argv env arg)).ending.outcome }] } := by
  have hfold := reentry_foldl_calls (js c.length cb (event_argv env arg)).reentry b
    (c ++ [{ callback := cb, argv := event_argv env arg,
             outcome := (js c.length cb (event_argv env arg)).ending.outcome }])
  rw [← hfold]
  cases he : (js c.length cb (event_argv env arg)).ending with
  | uncaught => exact absurd he hend
  | returned => simp only [dispatch_reentrant, hcb, he]
  | caught => simp only [dispatch_reentrant, hcb, he]

/-- An uncaught exception in the run for the event at position i of the batch,
the earlier runs having given control back, ends the process: the loop with
scripts stops after i + 1 invocations and the events after position i are
never handed over. -/
theorem dispatch_reentrant_uncaught (env : Env) (js : Nat → Callback → List Value → Script)
    (args : List log_args) :
    ∀ (b : Process) (c : List Invocation) (i : Nat),
      (∃ cb, b.grpc_logger_state.callback = some cb) → i < args.length →
      (∀ n cb argv, n < c.length + i → (js n cb argv).ending ≠ Ending.uncaught) →
      (∀ cb argv, (js (c.length + i) cb argv).ending = Ending.uncaught) →
      ∃ calls : List Invocation,
        dispatch_reentrant env js args { b with calls := c } =
          .error (Abort.process_exit calls (args.drop (i + 1))) ∧
        calls.length = c.length + (i + 1) := by
  induction args with
  | nil =>
    intro b c i _ hi
    simp at hi
  | cons arg args ih =>
    intro b c i hcb hi hbefore hat
    obtain ⟨cb, hcb1⟩ := hcb
    cases i with
    | zero =>
      have he := hat cb (event_argv env arg)
      simp only [Nat.add_zero] at he
      have hfold := reentry_foldl_calls (js c.length cb (event_argv env arg)).reentry b
        (c ++ [{ callback := cb, argv := event_argv env arg,
                 outcome := (js c.length cb (event_argv env arg)).ending.outcome }])
      refine ⟨c ++ [{ callback := cb, argv := event_argv env arg,
                      outcome := (js c.length cb (event_argv env arg)).ending.outcome }],
        ?_, by simp⟩
      simp only [dispatch_reentrant, hcb1, he]
      rw [he] at hfold
      rw [hfold]
      simp [he]
    | succ i =>
      have hne := hbefore c.length cb (event_argv env arg) (by omega)
      obtain ⟨calls, h1, h2⟩ :=
        ih ((js c.length cb (event_argv env arg)).reentry.foldl (fun q r => r.apply q) b)
          (c ++ [{ callback := cb, argv := event_argv env arg,
                   outcome := (js c.length cb (event_argv env arg)).ending.outcome }])
          i (reentry_foldl_callback _ b ⟨cb, hcb1⟩) (by simpa using hi)
          (by
            intro n cb2 argv hn
            exact hbefore n cb2 argv (by simp at hn; omega))
          (by
            intro cb2 argv
            have := hat cb2 argv
            simpa [Nat.add_assoc, Nat.add_comm 1 i] using this)
      refine ⟨calls, ?_, ?_⟩
      · rw [dispatch_reentrant_cons env js arg args b c cb hcb1 hne, h1]
        simp
      · rw [h2]
        simp
        omega

/-- The loop used for the other claims is the loop with scripts for a user
function that makes no call into the module and always gives control back. -/
theorem dispatch_reentrant_plain (env : Env) (js : Nat → Callback → List Value → Script)
    (hplain : ∀ n cb argv, (js n cb argv).reentry = [] ∧
      (js n cb argv).ending ≠ Ending.uncaught) (args : List log_args) :
    ∀ p q : Process,
      dispatch_reentrant env js args p = .ok q ↔
        dispatch { env with call := fun h cb argv => (js h.length cb argv).ending.outcome }
          args p = .ok q := by
  induction args with
  | nil =>
    intro p q
    simp [dispatch_reentrant, dispatch]
  | cons arg args ih =>
    intro p q
    cases hcb : p.grpc_logger_state.callback with
    | none => simp [dispatch_reentrant, dispatch, hcb]
    | some cb =>
      have h := dispatch_reentrant_cons env js arg args p p.calls cb hcb (hplain _ _ _).2
      have hp : ({ p with calls := p.calls } : Process) = p := rfl
      rw [hp, (hplain _ _ _).1] at h
      rw [h]
      simp only [dispatch, hcb]
      exact ih _ q

/-- Outside the reachable states the handler does go wrong: with an event
pending and no callback stored the loop calls through the null pointer. -/
theorem wake_null_callback (env : Env) (p : Process) (arg : log_args) (args : List log_args)
    (hcb : p.grpc_logger_state.callback = none)
    (hpa : p.grpc_logger_state.pending_args = arg :: args) :
    LogMessagesCallback env p = .error Fault.null_callback := by
  simp [LogMessagesCallback, hpa, dispatch, hcb]

/-- The state built by `init_logger` satisfies the invariant. -/
theorem callback_ready_init (baseline : Nat) : callback_ready (init_logger baseline) := by
  constructor
  · intro _
    exact ⟨rfl, rfl⟩
  · intro h
    simp [init_logger] at h

/-- In a state satisfying the invariant a wake ends normally. -/
theorem callback_ready_wake (env : Env) (p : Process) (h : callback_ready p) :
    ∃ q, LogMessagesCallback env p = .ok q ∧ callback_ready q := by
  cases hset : p.grpc_logger_state.logger_set with
  | false =>
    exact ⟨p, wake_empty env p (h.1 hset).1, h⟩
  | true =>
    obtain ⟨cb, hcb⟩ := h.2 hset
    obtain ⟨tr, w1, _, _⟩ := wake_some env cb p hcb
    refine ⟨_, w1, ?_, ?_⟩
    · intro hf
      simp only at hf
      rw [hset] at hf
      exact absurd hf (by simp)
    · intro _
      exact ⟨cb, hcb⟩

/-- Every action that ends normally preserves the invariant, and in a state
satisfying it every action ends normally. -/
theorem callback_ready_step (env : Env) (a : Action) (p : Process) (h : callback_ready p) :
    ∃ q, a.apply env p = .ok q ∧ callback_ready q := by
  cases a with
  | setDefaultLoggerCallback v =>
    refine ⟨_, rfl, ?_⟩
    cases v with
    | function f =>
      cases hset : p.grpc_logger_state.logger_set <;>
        simp [callback_ready, SetDefaultLoggerCallback, hset, gpr_set_log_function]
    | undefined => exact h
    | null => exact h
    | boolean b => exact h
    | number i => exact h
    | non_integral => exact h
    | string s => exact h
    | object => exact h
    | date ms => exact h
  | setLogVerbosity v =>
    refine ⟨_, rfl, ?_⟩
    simp only [SetLogVerbosity]
    split
    · exact h
    · exact h
  | emit args now =>
    refine ⟨_, rfl, ?_⟩
    cases hf : p.g_log_func with
    | gpr_default_log =>
      simp only [engine_emit, hf]
      exact h
    | node_log_func =>
      have hset : p.grpc_logger_state.logger_set = true := by
        cases hs : p.grpc_logger_state.logger_set with
        | true => rfl
        | false =>
          have := (h.1 hs).2
          rw [hf] at this
          exact absurd this (by simp)
      simp only [engine_emit, hf]
      constructor
      · intro hfalse
        simp only [node_log_func] at hfalse
        rw [hset] at hfalse
        exact absurd hfalse (by simp)
      · intro _
        exact h.2 hset
  | wake => exact callback_ready_wake env p h

/-- From a state satisfying the invariant every sequence of actions ends
normally in a state satisfying it. -/
theorem callback_ready_execute (env : Env) (acts : List Action) :
    ∀ p : Process, callback_ready p →
      ∃ q, execute env acts p = .ok q ∧ callback_ready q := by
  induction acts with
  | nil =>
    intro p h
    exact ⟨p, rfl, h⟩
  | cons a rest ih =>
    intro p h
    obtain ⟨p1, h1, hr1⟩ := callback_ready_step env a p h
    obtain ⟨q, h2, hr2⟩ := ih p1 hr1
    refine ⟨q, ?_, hr2⟩
    simp only [execute, h1]
    exact h2

/-- C11 (dispatch never runs without a callback): every sequence of calls of
the two setters with arbitrary arguments, engine events (which reach the hook
only once a registration has installed it) and wakes, started in the state
built by `init_logger`, ends normally.  In the state reached, `logger_set`
false implies that `pending_args` is empty, `logger_set` true implies that a
callback is stored, and a further wake ends normally: the call through
`grpc_logger_state.callback` is never made with the null pointer. -/
theorem dispatch_never_without_callback (env : Env) (baseline : Nat) (acts : List Action) :
    ∃ p : Process,
      execute env acts (init_logger baseline) = .ok p ∧
      (p.grpc_logger_state.logger_set = false → p.grpc_logger_state.pending_args = []) ∧
      (p.grpc_logger_state.logger_set = true → ∃ cb, p.grpc_logger_state.callback = some cb) ∧
      (p.grpc_logger_state.pending_args ≠ [] → ∃ cb, p.grpc_logger_state.callback = some cb) ∧
      (∃ q, LogMessagesCallback env p = .ok q) ∧
      LogMessagesCallback env p ≠ .error Fault.null_callback := by
  obtain ⟨p, hp, hr⟩ :=
    callback_ready_execute env acts (init_logger baseline) (callback_ready_init baseline)
  obtain ⟨q, hq, _⟩ := callback_ready_wake env p hr
  refine ⟨p, hp, fun hs => (hr.1 hs).1, hr.2, ?_, ⟨q, hq⟩, ?_⟩
  · intro hne
    cases hs : p.grpc_logger_state.logger_set with
    | true => exact hr.2 hs
    | false => exact absurd (hr.1 hs).1 hne
  · rw [hq]
    simp

/-- Two runs for C11: an engine event before any registration leaves the queue
empty with `logger_set` false; a registration, an event and a wake end normally
with the callback stored. -/
theorem dispatch_never_without_callback_witness :
    (∃ p : Process,
      execute sample_env [Action.emit sample_info sample_time, Action.wake] (init_logger 0)
        = .ok p ∧
      p.grpc_logger_state.logger_set = false ∧
      p.grpc_logger_state.pending_args = []) ∧
    (∃ p : Process,
      execute sample_env [Action.setDefaultLoggerCallback (Value.function 3),
        Action.emit sample_info sample_time] (init_logger 0) = .ok p ∧
      p.grpc_logger_state.logger_set = true ∧
      p.grpc_logger_state.pending_args ≠ [] ∧
      (∃ cb, p.grpc_logger_state.callback = some cb) ∧
      ∃ q, LogMessagesCallback sample_env p = .ok q) := by
  constructor
  · obtain ⟨p, hp, h1, _⟩ :=
      dispatch_never_without_callback sample_env 0
        [Action.emit sample_info sample_time, Action.wake]
    have hp2 : execute sample_env [Action.emit sample_info sample_time, Action.wake]
        (init_logger 0) = .ok (init_logger 0) := rfl
    rw [hp2] at hp
    simp only [Except.ok.injEq] at hp
    subst hp
    exact ⟨_, hp2, rfl, h1 rfl⟩
  · obtain ⟨p, hp, _, h2, _, h4, _⟩ :=
      dispatch_never_without_callback sample_env 0
        [Action.setDefaultLoggerCallback (Value.function 3),
          Action.emit sample_info sample_time]
    have hp2 : execute sample_env [Action.setDefaultLoggerCallback (Value.function 3),
        Action.emit sample_info sample_time] (init_logger 0) =
        .ok (node_log_func sample_info sample_time (registered 0 3)) := rfl
    rw [hp2] at hp
    simp only [Except.ok.injEq] at hp
    subst hp
    exact ⟨_, hp2, rfl, by simp [node_log_func], h2 rfl, h4⟩

end NodeGrpc
